import Mathlib

/-!
Verification of the evdev controller muxer (`src/main.rs`) against its
natural-language specification.  The Rust source is shallowly embedded:
the device scan, the forwarding worker loop, the connection supervisor,
the mutex-guarded output sink and `main` become Lean functions or small
step relations, and the spec's claims become theorems about them.
-/

/-- A candidate `/dev/input/event{i}` node as the scanner sees it:
`name` is the advertised device name, `none` when `Device::name()`
returns no name (Rust then substitutes the empty string via
`unwrap_or_default`). -/
structure DeviceNode where
  name : Option String
deriving DecidableEq, Repr

/-- The OS environment of one scan: for each node index, `some d` when
`Device::open("/dev/input/event{i}")` succeeds with device `d`, `none`
when the open fails (missing node, permissions, ...). -/
def ScanEnv := Nat → Option DeviceNode

/-- Substring containment on lists of characters, mirroring Rust
`str::contains` (case-sensitive; the empty pattern is contained in
every string). -/
def listContainsSub : List Char → List Char → Bool
  | s, pat =>
    if pat.isPrefixOf s then true
    else
      match s with
      | [] => false
      | _ :: rest => listContainsSub rest pat

/-- `strContains s pat` mirrors Rust `s.contains(pat)`. -/
def strContains (s pat : String) : Bool :=
  listContainsSub s.data pat.data

/-- The name string the scanner compares against:
`device.name().unwrap_or_default()`. -/
def advertisedName (d : DeviceNode) : String :=
  d.name.getD ""

/-- Whether the body of the scan loop accepts index `i`: the open
succeeded and the advertised name contains the target. -/
def nodeMatches (env : ScanEnv) (name : String) (i : Nat) : Bool :=
  match env i with
  | some d => strContains (advertisedName d) name
  | none => false

/-- The error message built by `find_device_by_name` when the loop
falls through. -/
def notFoundMsg (name : String) : String :=
  "Could not find controller named '" ++ name ++
    "'. Check device name or ensure permissions are set."

/-- The scan loop of `find_device_by_name` from index `i`, with `fuel`
indices left to examine:
`for i in 0..32 { if let Ok(device) = Device::open(path) &&
device.name().unwrap_or_default().contains(name) { return Ok(device) } }`.
We return the index of the accepted node (the path and device follow
from it via `env`). -/
def findFrom (env : ScanEnv) (name : String) : Nat → Nat → Except String Nat
  | _, 0 => .error (notFoundMsg name)
  | i, fuel + 1 =>
    if nodeMatches env name i then .ok i
    else findFrom env name (i + 1) fuel

/-- `find_device_by_name`, entering the loop at index 0 with the 32
indices `0..32` still to visit. -/
def find_device_by_name (env : ScanEnv) (name : String) : Except String Nat :=
  findFrom env name 0 32

lemma findFrom_ok_spec (env : ScanEnv) (name : String) :
    ∀ fuel i j, findFrom env name i fuel = .ok j →
      i ≤ j ∧ j < i + fuel ∧ nodeMatches env name j = true ∧
      ∀ k, i ≤ k → k < j → nodeMatches env name k = false := by
  intro fuel
  induction fuel with
  | zero => intro i j h; simp [findFrom] at h
  | succ n ih =>
    intro i j h
    rw [findFrom] at h
    by_cases hm : nodeMatches env name i = true
    · simp only [hm, if_true, Except.ok.injEq] at h
      subst h
      exact ⟨Nat.le_refl _, by omega, hm, fun k hk1 hk2 => by omega⟩
    · simp only [hm, if_false, Bool.false_eq_true] at h
      obtain ⟨h1, h2, h3, h4⟩ := ih (i + 1) j h
      refine ⟨by omega, by omega, h3, ?_⟩
      intro k hk1 hk2
      rcases Nat.eq_or_lt_of_le hk1 with rfl | hlt
      · exact Bool.not_eq_true _ |>.mp hm
      · exact h4 k hlt hk2

lemma findFrom_err_spec (env : ScanEnv) (name : String) :
    ∀ fuel i e, findFrom env name i fuel = .error e →
      e = notFoundMsg name ∧
      ∀ k, i ≤ k → k < i + fuel → nodeMatches env name k = false := by
  intro fuel
  induction fuel with
  | zero =>
    intro i e h
    simp only [findFrom, Except.error.injEq] at h
    exact ⟨h.symm, fun k hk1 hk2 => by omega⟩
  | succ n ih =>
    intro i e h
    rw [findFrom] at h
    by_cases hm : nodeMatches env name i = true
    · simp [hm] at h
    · simp only [hm, if_false, Bool.false_eq_true] at h
      obtain ⟨h1, h2⟩ := ih (i + 1) e h
      refine ⟨h1, ?_⟩
      intro k hk1 hk2
      rcases Nat.eq_or_lt_of_le hk1 with rfl | hlt
      · exact Bool.not_eq_true _ |>.mp hm
      · exact h2 k hlt (by omega)

lemma findFrom_complete (env : ScanEnv) (name : String) :
    ∀ fuel i, (∀ k, i ≤ k → k < i + fuel → nodeMatches env name k = false) →
      findFrom env name i fuel = .error (notFoundMsg name) := by
  intro fuel
  induction fuel with
  | zero => intro i _; rfl
  | succ n ih =>
    intro i h
    rw [findFrom]
    have hi : nodeMatches env name i = false := h i (Nat.le_refl _) (by omega)
    simp only [hi, Bool.false_eq_true, if_false]
    exact ih (i + 1) (fun k hk1 hk2 => h k (by omega) (by omega))

/-- C1: the scanner visits indices 0..31 in increasing order and returns
the first index that both opens and name-matches; when no index in range
opens and matches it returns the fixed not-found error, and nodes that
fail to open are skipped (they simply never satisfy `nodeMatches`). -/
theorem C1_scan_first_match (env : ScanEnv) (name : String) :
    (∀ i, find_device_by_name env name = .ok i →
        i < 32 ∧ nodeMatches env name i = true ∧
        ∀ j, j < i → nodeMatches env name j = false) ∧
    (∀ e, find_device_by_name env name = .error e →
        e = notFoundMsg name ∧ ∀ i, i < 32 → nodeMatches env name i = false) ∧
    ((∀ i, i < 32 → nodeMatches env name i = false) →
        find_device_by_name env name = .error (notFoundMsg name)) := by
  refine ⟨?_, ?_, ?_⟩
  · intro i h
    obtain ⟨_, h2, h3, h4⟩ := findFrom_ok_spec env name 32 0 i h
    exact ⟨by omega, h3, fun j hj => h4 j (Nat.zero_le _) hj⟩
  · intro e h
    obtain ⟨h1, h2⟩ := findFrom_err_spec env name 32 0 e h
    exact ⟨h1, fun i hi => h2 i (Nat.zero_le _) (by omega)⟩
  · intro h
    exact findFrom_complete env name 32 0 (fun k _ hk => h k (by omega))

/-- A concrete scan environment: only node 5 opens, advertising the
primary controller's name. -/
def envOnlyNode5 : ScanEnv := fun i =>
  if i = 5 then some ⟨some "Xbox Wireless Controller"⟩ else none

theorem C1_scan_first_match_witness :
    5 < 32 ∧ nodeMatches envOnlyNode5 "Xbox" 5 = true ∧
      ∀ j, j < 5 → nodeMatches envOnlyNode5 "Xbox" j = false :=
  (C1_scan_first_match envOnlyNode5 "Xbox").1 5 (by rfl)

lemma listContainsSub_nil (s : List Char) : listContainsSub s [] = true := by
  cases s <;> simp [listContainsSub, List.isPrefixOf]

/-- Rust `s.contains("")` is `true` for every `s`. -/
lemma strContains_empty (s : String) : strContains s "" = true :=
  listContainsSub_nil s.data

lemma nodeMatches_empty (env : ScanEnv) (i : Nat) :
    nodeMatches env "" i = (env i).isSome := by
  cases h : env i <;> simp [nodeMatches, h, strContains_empty]

/-- C10: a nameless device is compared as the empty string, the empty
target matches every openable node, and so a scan for the empty name
returns the first openable index in 0..32, failing only when no node in
range opens at all. -/
theorem C10_empty_name_scan (env : ScanEnv) :
    (∀ d : DeviceNode, d.name = none → advertisedName d = "") ∧
    (∀ i, nodeMatches env "" i = (env i).isSome) ∧
    (∀ i, find_device_by_name env "" = .ok i →
        i < 32 ∧ (env i).isSome = true ∧ ∀ j, j < i → env j = none) ∧
    (find_device_by_name env "" = .error (notFoundMsg "") ↔
        ∀ i, i < 32 → env i = none) := by
  have hmatch : ∀ i, nodeMatches env "" i = (env i).isSome := nodeMatches_empty env
  refine ⟨?_, hmatch, ?_, ?_, ?_⟩
  · intro d h; simp [advertisedName, h]
  · intro i h
    obtain ⟨_, h2, h3, h4⟩ := findFrom_ok_spec env "" 32 0 i h
    refine ⟨by omega, by rw [← hmatch]; exact h3, ?_⟩
    intro j hj
    have := h4 j (Nat.zero_le _) hj
    rw [hmatch] at this
    cases hj' : env j
    · rfl
    · rw [hj'] at this; simp at this
  · intro h i hi
    obtain ⟨_, h2⟩ := findFrom_err_spec env "" 32 0 _ h
    have := h2 i (Nat.zero_le _) (by omega)
    rw [hmatch] at this
    cases hj' : env i
    · rfl
    · rw [hj'] at this; simp at this
  · intro h
    refine findFrom_complete env "" 32 0 ?_
    intro k _ hk
    rw [hmatch, h k (by omega)]
    rfl

/-- A concrete scan environment: only node 3 opens, and its device
advertises no name at all. -/
def envNamelessNode3 : ScanEnv := fun i =>
  if i = 3 then some ⟨none⟩ else none

theorem C10_empty_name_scan_witness :
    3 < 32 ∧ (envNamelessNode3 3).isSome = true ∧
      ∀ j, j < 3 → envNamelessNode3 j = none :=
  (C10_empty_name_scan envNamelessNode3).2.2.1 3 (by rfl)

/-- A raw input event as forwarded by the worker: an opaque
(type, code, value, timestamp) record, never interpreted. -/
structure InputEvent where
  typ : Nat
  code : Nat
  value : Int
  time : Nat
deriving DecidableEq, Repr

/-- Where a forwarding-worker failure originated: the initial exclusive
grab, the `n`-th `fetch_events` call, or the `k`-th `emit` call. -/
inductive WorkerErr where
  | grabFailed (e : String)
  | fetchFailed (iter : Nat) (e : String)
  | emitFailed (call : Nat) (e : String)
deriving DecidableEq, Repr

/-- Possible results of running the worker loop for finitely many
iterations: a normal `Ok(())` return (which the code never produces),
a failure, or still running when the iteration budget is spent. -/
inductive WorkerOutcome where
  | ok
  | failed (e : WorkerErr)
  | running
deriving DecidableEq, Repr

/-- The worker's environment: whether `grab()` fails, the result of the
`n`-th `fetch_events()` call, and whether the `k`-th `emit` call fails
(the sink may reject a write at any point). -/
structure WorkerEnv where
  grabErr : Option String
  fetch : Nat → Except String (List InputEvent)
  emitErr : Nat → Option String

/-- The inner `for event in source_device.fetch_events()?` loop: each
event is submitted by its own `emit(&[event])` call (one event per
call), under the sink lock; `k` counts emit calls made so far and `out`
accumulates the events actually delivered, in submission order. -/
def emitBatch (emitErr : Nat → Option String) :
    List InputEvent → Nat → List InputEvent →
      Option (Nat × String) × Nat × List InputEvent
  | [], k, out => (none, k, out)
  | e :: rest, k, out =>
    match emitErr k with
    | some msg => (some (k, msg), k + 1, out)
    | none => emitBatch emitErr rest (k + 1) (out ++ [e])

/-- The outer `loop { ... fetch_events()? ... sleep(10ms) }` of
`handle_controller`, run for `fuel` iterations starting at fetch `n`
with `k` emit calls already made and `out` already delivered.  The
10 ms sleep only consumes time and is not modelled as data. -/
def handleLoop (env : WorkerEnv) :
    Nat → Nat → List InputEvent → Nat →
      WorkerOutcome × Nat × List InputEvent
  | _, k, out, 0 => (.running, k, out)
  | n, k, out, fuel + 1 =>
    match env.fetch n with
    | .error e => (.failed (.fetchFailed n e), k, out)
    | .ok batch =>
      match emitBatch env.emitErr batch k out with
      | (some (c, msg), k', out') => (.failed (.emitFailed c msg), k', out')
      | (none, k', out') => handleLoop env (n + 1) k' out' fuel

/-- `handle_controller`: grab the source exclusively, then stream; the
result carries the outcome, the number of emit calls made, and the
sequence of events delivered to the sink. -/
def handle_controller (env : WorkerEnv) (fuel : Nat) :
    WorkerOutcome × Nat × List InputEvent :=
  match env.grabErr with
  | some e => (.failed (.grabFailed e), 0, [])
  | none => handleLoop env 0 0 [] fuel

lemma emitBatch_err_spec (emitErr : Nat → Option String) :
    ∀ batch k out c msg k' out',
      emitBatch emitErr batch k out = (some (c, msg), k', out') →
      emitErr c = some msg := by
  intro batch
  induction batch with
  | nil => intro k out c msg k' out' h; simp [emitBatch] at h
  | cons e rest ih =>
    intro k out c msg k' out' h
    rw [emitBatch] at h
    cases hk : emitErr k with
    | some m =>
      rw [hk] at h
      have h2 : ((some (k, m), k + 1, out) :
          Option (Nat × String) × Nat × List InputEvent) = (some (c, msg), k', out') := h
      injection h2 with h3 h4
      injection h3 with h5
      injection h5 with hc hm
      rw [← hc, ← hm]
      exact hk
    | none =>
      simp only [hk] at h
      exact ih _ _ _ _ _ _ h

lemma handleLoop_ne_ok (env : WorkerEnv) :
    ∀ fuel n k out, (handleLoop env n k out fuel).1 ≠ .ok := by
  intro fuel
  induction fuel with
  | zero => intro n k out; simp [handleLoop]
  | succ m ih =>
    intro n k out
    rw [handleLoop]
    cases hf : env.fetch n with
    | error e => simp
    | ok batch =>
      simp only [hf]
      rcases he : emitBatch env.emitErr batch k out with ⟨err, k', out'⟩
      cases err with
      | some p => rcases p with ⟨c, msg⟩; simp
      | none => exact ih (n + 1) k' out'

lemma handleLoop_fetch_err (env : WorkerEnv) :
    ∀ fuel n k out m e,
      (handleLoop env n k out fuel).1 = .failed (.fetchFailed m e) →
      env.fetch m = .error e := by
  intro fuel
  induction fuel with
  | zero => intro n k out m e h; simp [handleLoop] at h
  | succ f ih =>
    intro n k out m e h
    rw [handleLoop] at h
    cases hf : env.fetch n with
    | error e' =>
      simp only [hf, WorkerOutcome.failed.injEq, WorkerErr.fetchFailed.injEq] at h
      rw [← h.1, ← h.2]; exact hf
    | ok batch =>
      simp only [hf] at h
      rcases he : emitBatch env.emitErr batch k out with ⟨err, k', out'⟩
      rw [he] at h
      cases err with
      | some p => simp at h
      | none => exact ih (n + 1) k' out' m e h

lemma handleLoop_emit_err (env : WorkerEnv) :
    ∀ fuel n k out c e,
      (handleLoop env n k out fuel).1 = .failed (.emitFailed c e) →
      env.emitErr c = some e := by
  intro fuel
  induction fuel with
  | zero => intro n k out c e h; simp [handleLoop] at h
  | succ f ih =>
    intro n k out c e h
    rw [handleLoop] at h
    cases hf : env.fetch n with
    | error e' => simp [hf] at h
    | ok batch =>
      simp only [hf] at h
      rcases he : emitBatch env.emitErr batch k out with ⟨err, k', out'⟩
      rw [he] at h
      cases err with
      | some p =>
        rcases p with ⟨c', msg⟩
        simp only [WorkerOutcome.failed.injEq, WorkerErr.emitFailed.injEq] at h
        rw [← h.1, ← h.2]
        exact emitBatch_err_spec env.emitErr batch k out c' msg k' out' he
      | none => exact ih (n + 1) k' out' c e h

lemma handleLoop_no_grab_err (env : WorkerEnv) :
    ∀ fuel n k out e, (handleLoop env n k out fuel).1 ≠ .failed (.grabFailed e) := by
  intro fuel
  induction fuel with
  | zero => intro n k out e; simp [handleLoop]
  | succ f ih =>
    intro n k out e
    rw [handleLoop]
    cases hf : env.fetch n with
    | error e' => simp
    | ok batch =>
      simp only [hf]
      rcases he : emitBatch env.emitErr batch k out with ⟨err, k', out'⟩
      cases err with
      | some p => rcases p with ⟨c, msg⟩; simp
      | none => exact ih (n + 1) k' out' e

/-- C2: the worker loop has no normal exit — for every environment and
every iteration budget the outcome is never `Ok(())`, and every failure
it does return originates in the initial grab, a `fetch_events` call,
or an `emit` call, faithfully reporting that call's error. -/
theorem C2_no_normal_exit (env : WorkerEnv) (fuel : Nat) :
    (handle_controller env fuel).1 ≠ .ok ∧
    (∀ e, (handle_controller env fuel).1 = .failed (.grabFailed e) →
        env.grabErr = some e) ∧
    (∀ n e, (handle_controller env fuel).1 = .failed (.fetchFailed n e) →
        env.fetch n = .error e) ∧
    (∀ c e, (handle_controller env fuel).1 = .failed (.emitFailed c e) →
        env.emitErr c = some e) := by
  unfold handle_controller
  cases hg : env.grabErr with
  | some e0 =>
    refine ⟨by simp, ?_, ?_, ?_⟩
    · intro e h
      simp only [WorkerOutcome.failed.injEq, WorkerErr.grabFailed.injEq] at h
      rw [h]
    · intro n e h; simp at h
    · intro c e h; simp at h
  | none =>
    refine ⟨handleLoop_ne_ok env fuel 0 0 [], ?_, ?_, ?_⟩
    · intro e h
      exact absurd h (handleLoop_no_grab_err env fuel 0 0 [] e)
    · intro n e h; exact handleLoop_fetch_err env fuel 0 0 [] n e h
    · intro c e h; exact handleLoop_emit_err env fuel 0 0 [] c e h

/-- A worker environment whose exclusive grab fails outright. -/
def envGrabFail : WorkerEnv :=
  { grabErr := some "device already grabbed"
    fetch := fun _ => .ok []
    emitErr := fun _ => none }

theorem C2_no_normal_exit_witness :
    envGrabFail.grabErr = some "device already grabbed" :=
  (C2_no_normal_exit envGrabFail 4).2.1 "device already grabbed" (by rfl)

lemma emitBatch_ok (emitErr : Nat → Option String) (he : ∀ k, emitErr k = none) :
    ∀ batch k out,
      emitBatch emitErr batch k out = (none, k + batch.length, out ++ batch) := by
  intro batch
  induction batch with
  | nil => intro k out; simp [emitBatch]
  | cons e rest ih =>
    intro k out
    rw [emitBatch, he k]
    rw [ih (k + 1) (out ++ [e])]
    simp [List.append_assoc]
    omega

/-- The concatenation, in read order, of the batches `B n`, ...,
`B (n + fuel - 1)` delivered by consecutive `fetch_events` calls. -/
def segConcat (B : Nat → List InputEvent) : Nat → Nat → List InputEvent
  | _, 0 => []
  | n, fuel + 1 => B n ++ segConcat B (n + 1) fuel

lemma handleLoop_all_ok (env : WorkerEnv) (B : Nat → List InputEvent)
    (hf : ∀ n, env.fetch n = .ok (B n)) (he : ∀ k, env.emitErr k = none) :
    ∀ fuel n k out,
      handleLoop env n k out fuel =
        (.running, k + (segConcat B n fuel).length, out ++ segConcat B n fuel) := by
  intro fuel
  induction fuel with
  | zero => intro n k out; simp [handleLoop, segConcat]
  | succ f ih =>
    intro n k out
    rw [handleLoop]
    simp only [hf n, emitBatch_ok env.emitErr he]
    rw [ih (n + 1) (k + (B n).length) (out ++ B n), segConcat]
    simp [List.append_assoc, List.length_append]
    omega

/-- C3: when nothing fails, the worker submits exactly the events it
read, verbatim and in read order — the delivered sequence is the
concatenation of the fetched batches — and it makes one emit call per
event (the emit-call count equals the number of events delivered). -/
theorem C3_forwarding_identity (env : WorkerEnv) (B : Nat → List InputEvent)
    (fuel : Nat) (hg : env.grabErr = none)
    (hf : ∀ n, env.fetch n = .ok (B n)) (he : ∀ k, env.emitErr k = none) :
    handle_controller env fuel =
      (.running, (segConcat B 0 fuel).length, segConcat B 0 fuel) := by
  unfold handle_controller
  rw [hg]
  simpa using handleLoop_all_ok env B hf he fuel 0 0 []

/-- Two fetch batches: one event in the first, two in the second. -/
def batchesSmall : Nat → List InputEvent := fun n =>
  if n = 0 then [⟨3, 0, 120, 0⟩]
  else if n = 1 then [⟨3, 1, -98, 1⟩, ⟨1, 304, 1, 2⟩]
  else []

/-- A worker environment in which the grab, every fetch and every emit
succeed, fetches yielding `batchesSmall`. -/
def envAllOk : WorkerEnv :=
  { grabErr := none
    fetch := fun n => .ok (batchesSmall n)
    emitErr := fun _ => none }

theorem C3_forwarding_identity_witness :
    handle_controller envAllOk 2 =
      (.running, (segConcat batchesSmall 0 2).length, segConcat batchesSmall 0 2) :=
  C3_forwarding_identity envAllOk batchesSmall 2 rfl (fun _ => rfl) (fun _ => rfl)

lemma handle_controller_not_ok (env : WorkerEnv) (fuel : Nat) :
    (handle_controller env fuel).1 ≠ .ok := by
  unfold handle_controller
  cases hg : env.grabErr with
  | some e => simp
  | none => exact handleLoop_ne_ok env fuel 0 0 []

/-- The display string of a session failure, as interpolated into the
supervisor's log line (`Box<dyn Error>` renders as its message). -/
def workerErrMsg : WorkerErr → String
  | .grabFailed e => e
  | .fetchFailed _ e => e
  | .emitFailed _ e => e

/-- The supervisor's discovery-failure log line:
`println!("[{}] Device not yet found. Searching in 3s...", controller_name)`. -/
def notYetFoundLog (name : String) : String :=
  "[" ++ name ++ "] Device not yet found. Searching in 3s..."

/-- The supervisor's session-failure log line:
`eprintln!("[{}] Handler exited (reconnecting in 3s): {}", controller_name, e)`. -/
def handlerExitLog (name e : String) : String :=
  "[" ++ name ++ ("] Handler exited (reconnecting in 3s): " ++ e)

/-- Observable actions of one `connection_loop` iteration. -/
inductive SupEvent where
  | discover (ok : Bool)
  | sessionStart
  | sessionEnd (w : WorkerErr)
  | log (s : String)
  | sleep (ms : Nat)
deriving DecidableEq, Repr

/-- Outcome of one iteration of the supervisor loop: either it ran to
its trailing sleep and loops again, or the thread is still blocked
inside `handle_controller` (the session has not failed yet). -/
inductive IterResult where
  | finished (events : List SupEvent)
  | streaming
deriving DecidableEq, Repr

/-- What one supervisor iteration sees of the world: the scan
environment of its (fresh) discovery attempt and, on success, the
worker environment and iteration budget of the session it runs. -/
structure IterEnv where
  scan : ScanEnv
  session : WorkerEnv
  sessionFuel : Nat

/-- One iteration of the `connection_loop` closure:
`match find_device_by_name(..) { Ok(dev) => if let Err(e) =
handle_controller(..) { eprintln!(..) }, Err(_) => println!(..) };
sleep(3s)`. -/
def connection_iter (name : String) (env : IterEnv) : IterResult :=
  match find_device_by_name env.scan name with
  | .ok _ =>
    match handle_controller env.session env.sessionFuel with
    | (.failed w, _, _) =>
      .finished [.discover true, .sessionStart, .sessionEnd w,
        .log (handlerExitLog name (workerErrMsg w)), .sleep 3000]
    | (.ok, _, _) => .finished [.discover true, .sessionStart, .sleep 3000]
    | (.running, _, _) => .streaming
  | .error _ =>
    .finished [.discover false, .log (notYetFoundLog name), .sleep 3000]

/-- The supervisor's infinite loop, iteration by iteration: the loop
body has no exit, so iteration `t` simply runs `connection_iter` on the
world as found at time `t`. -/
def connection_trace (name : String) (env : Nat → IterEnv) (t : Nat) : IterResult :=
  connection_iter name (env t)

/-- Phases of one Connection Supervisor thread, read off the body of
`connection_loop`: scanning, blocked inside `handle_controller` with a
grabbed source, or sleeping the fixed 3 s delay. -/
inductive SupPhase where
  | searching
  | connected
  | sleeping
deriving DecidableEq, Repr

/-- Sequential control flow of `connection_loop`: discovery either
connects or goes to the delay; a session only ends into the delay; the
delay re-enters discovery.  There is no transition that starts a second
session while one is active. -/
inductive SupStep : SupPhase → SupPhase → Prop where
  | connect : SupStep .searching .connected
  | missing : SupStep .searching .sleeping
  | sessionEnded : SupStep .connected .sleeping
  | wake : SupStep .sleeping .searching

/-- Number of live `SourceSession`s (exclusively-grabbed handles) this
supervisor holds in a given phase. -/
def activeSessions : SupPhase → Nat
  | .connected => 1
  | _ => 0

/-- Phases a supervisor thread can be in, starting from its first
discovery attempt. -/
inductive SupReachable : SupPhase → Prop where
  | start : SupReachable .searching
  | step : ∀ {p q}, SupReachable p → SupStep p q → SupReachable q

def isSessionStart : SupEvent → Bool
  | .sessionStart => true
  | _ => false

def isSessionEnd : SupEvent → Bool
  | .sessionEnd _ => true
  | _ => false

lemma connection_iter_finished (name : String) (env : IterEnv) (r : List SupEvent)
    (h : connection_iter name env = .finished r) :
    (∃ w, r = [.discover true, .sessionStart, .sessionEnd w,
        .log (handlerExitLog name (workerErrMsg w)), .sleep 3000]) ∨
    r = [.discover false, .log (notYetFoundLog name), .sleep 3000] := by
  unfold connection_iter at h
  cases hf : find_device_by_name env.scan name with
  | ok i =>
    simp only [hf] at h
    rcases hh : handle_controller env.session env.sessionFuel with ⟨outc, k, out⟩
    simp only [hh] at h
    cases outc with
    | failed w =>
      left
      refine ⟨w, ?_⟩
      injection h with h'
      exact h'.symm
    | ok =>
      exact absurd (by rw [hh] : (handle_controller env.session env.sessionFuel).1 = .ok)
        (handle_controller_not_ok env.session env.sessionFuel)
    | running => simp at h
  | error e =>
    simp only [hf] at h
    right
    injection h with h'
    exact h'.symm

/-- C4: per configured name, at most one exclusively-grabbed source
session exists at any time — every reachable supervisor phase holds at
most one session, a session can only be entered from `searching` (a new
grab is attempted only after the previous session has ended and the
delay has elapsed), a session only leaves into the delay, and every
finished loop iteration starts exactly as many sessions as it ends,
never more than one. -/
theorem C4_at_most_one_session (name : String) :
    (∀ p, SupReachable p → activeSessions p ≤ 1) ∧
    (∀ p, SupStep p .connected → p = .searching) ∧
    (∀ q, SupStep .connected q → q = .sleeping) ∧
    (∀ env t r, connection_trace name env t = .finished r →
        r.countP isSessionStart ≤ 1 ∧
        r.countP isSessionStart = r.countP isSessionEnd) := by
  refine ⟨?_, ?_, ?_, ?_⟩
  · intro p _; cases p <;> simp [activeSessions]
  · intro p h; cases h; rfl
  · intro q h; cases h; rfl
  · intro env t r h
    rcases connection_iter_finished name (env t) r h with ⟨w, rfl⟩ | rfl
    · exact ⟨Nat.le_refl 1, rfl⟩
    · exact ⟨Nat.zero_le 1, rfl⟩

theorem C4_at_most_one_session_witness : activeSessions .connected ≤ 1 :=
  (C4_at_most_one_session "Pad").1 .connected
    (SupReachable.step SupReachable.start SupStep.connect)

/-- C7: the supervisor loop has no retry bound — every finished
iteration (after a discovery failure or a session failure alike) ends
with the fixed 3-second sleep and begins with a fresh discovery, and
when the device is absent at time `t` the iteration still finishes
normally (logging and sleeping), so an absent device never terminates
the thread, at any iteration index. -/
theorem C7_supervisor_retries_forever (name : String) (env : Nat → IterEnv) :
    (∀ t r, connection_trace name env t = .finished r →
        r.getLast? = some (.sleep 3000) ∧ ∃ b, r.head? = some (.discover b)) ∧
    (∀ t e, find_device_by_name (env t).scan name = .error e →
        connection_trace name env t =
          .finished [.discover false, .log (notYetFoundLog name), .sleep 3000]) := by
  constructor
  · intro t r h
    rcases connection_iter_finished name (env t) r h with ⟨w, rfl⟩ | rfl
    · exact ⟨rfl, true, rfl⟩
    · exact ⟨rfl, false, rfl⟩
  · intro t e h
    unfold connection_trace connection_iter
    rw [h]

/-- A world in which no device node ever opens: discovery fails at
every iteration. -/
def envNeverFound : Nat → IterEnv := fun _ =>
  { scan := fun _ => none
    session := envAllOk
    sessionFuel := 0 }

theorem C7_supervisor_retries_forever_witness :
    connection_trace "Pad" envNeverFound 7 =
      .finished [.discover false, .log (notYetFoundLog "Pad"), .sleep 3000] :=
  (C7_supervisor_retries_forever "Pad" envNeverFound).2 7 (notFoundMsg "Pad") (by rfl)

lemma listContainsSub_of_middle : ∀ l pat r : List Char,
    listContainsSub (l ++ (pat ++ r)) pat = true := by
  intro l
  induction l with
  | nil =>
    intro pat r
    rw [List.nil_append, listContainsSub.eq_def]
    have hp : pat.isPrefixOf (pat ++ r) = true := by
      rw [List.isPrefixOf_iff_prefix]
      exact List.prefix_append pat r
    simp [hp]
  | cons c cs ih =>
    intro pat r
    rw [List.cons_append, listContainsSub.eq_def]
    by_cases hp : pat.isPrefixOf (c :: (cs ++ (pat ++ r))) = true
    · simp [hp]
    · have hp' : pat.isPrefixOf (c :: (cs ++ (pat ++ r))) = false :=
        (Bool.not_eq_true _).mp hp
      show (if pat.isPrefixOf (c :: (cs ++ (pat ++ r))) = true then true
          else listContainsSub (cs ++ (pat ++ r)) pat) = true
      rw [hp']
      simp only [Bool.false_eq_true, if_false]
      exact ih pat r

lemma strContains_middle (a b c : String) : strContains (a ++ (b ++ c)) b = true := by
  unfold strContains
  rw [String.data_append, String.data_append]
  exact listContainsSub_of_middle a.data b.data c.data

lemma strContains_right (a b : String) : strContains (a ++ b) b = true := by
  have h := strContains_middle a b ""
  rwa [String.append_empty] at h

/-- C9: each recoverable failure is reported as a log line carrying the
offending source name and a human-readable reason: the discovery-failure
line contains the name, the session-failure line contains both the name
and the failure's message, and these two plain-string lines are the only
log lines a supervisor iteration can emit. -/
theorem C9_failure_logs (name : String) :
    strContains (notYetFoundLog name) name = true ∧
    (∀ e, strContains (handlerExitLog name e) name = true ∧
        strContains (handlerExitLog name e) e = true) ∧
    (∀ env t r, connection_trace name env t = .finished r →
        ∀ s, SupEvent.log s ∈ r →
          s = notYetFoundLog name ∨
          ∃ w, s = handlerExitLog name (workerErrMsg w)) := by
  refine ⟨?_, ?_, ?_⟩
  · unfold notYetFoundLog
    rw [String.append_assoc]
    exact strContains_middle _ _ _
  · intro e
    constructor
    · unfold handlerExitLog
      rw [String.append_assoc]
      exact strContains_middle _ _ _
    · unfold handlerExitLog
      rw [← String.append_assoc]
      exact strContains_right _ _
  · intro env t r h s hs
    rcases connection_iter_finished name (env t) r h with ⟨w, rfl⟩ | rfl
    · right
      simp only [List.mem_cons, List.not_mem_nil, or_false,
        SupEvent.log.injEq, reduceCtorEq, false_or] at hs
      exact ⟨w, hs⟩
    · left
      simp only [List.mem_cons, List.not_mem_nil, or_false,
        SupEvent.log.injEq, reduceCtorEq, false_or, or_false] at hs
      exact hs

theorem C9_failure_logs_witness :
    notYetFoundLog "Pad" = notYetFoundLog "Pad" ∨
      ∃ w, notYetFoundLog "Pad" = handlerExitLog "Pad" (workerErrMsg w) :=
  (C9_failure_logs "Pad").2.2 envNeverFound 0
    [.discover false, .log (notYetFoundLog "Pad"), .sleep 3000]
    (by rfl) (notYetFoundLog "Pad") (by simp)

/-- Mirror of `evdev::AbsInfo::new(value, minimum, maximum, fuzz, flat,
resolution)`. -/
structure AbsInfo where
  value : Int
  minimum : Int
  maximum : Int
  fuzz : Int
  flat : Int
  resolution : Int
deriving DecidableEq, Repr

/-- The absolute-axis codes the muxer declares. -/
inductive AbsoluteAxisCode where
  | ABS_X | ABS_Y | ABS_RX | ABS_RY | ABS_Z | ABS_RZ | ABS_HAT0X | ABS_HAT0Y
deriving DecidableEq, Repr

/-- The button codes the muxer declares. -/
inductive KeyCode where
  | BTN_SOUTH | BTN_NORTH | BTN_EAST | BTN_WEST | BTN_SELECT | BTN_START
  | BTN_MODE | BTN_TL | BTN_TR | BTN_THUMBL | BTN_THUMBR
deriving DecidableEq, Repr

/-- The capability declaration accumulated by the `VirtualDevice`
builder: device name, declared absolute axes (in declaration order,
with their `AbsInfo`), and declared buttons. -/
structure VirtualDeviceConfig where
  name : String
  axes : List (AbsoluteAxisCode × AbsInfo)
  keys : List KeyCode
deriving DecidableEq, Repr

/-- `AbsInfo::new(0, -32768, 32767, 16, 128, 0)` of `setup_virtual_device`. -/
def stick_info : AbsInfo := ⟨0, -32768, 32767, 16, 128, 0⟩

/-- `AbsInfo::new(0, 0, 1023, 0, 0, 0)` of `setup_virtual_device`. -/
def trigger_info : AbsInfo := ⟨0, 0, 1023, 0, 0, 0⟩

/-- The capability set built by `setup_virtual_device`, axis by axis and
button by button in source order. -/
def setup_virtual_device : VirtualDeviceConfig :=
  { name := "Muxed Controller"
    axes := [(.ABS_X, stick_info), (.ABS_Y, stick_info),
      (.ABS_RX, stick_info), (.ABS_RY, stick_info),
      (.ABS_Z, trigger_info), (.ABS_RZ, trigger_info),
      (.ABS_HAT0X, trigger_info), (.ABS_HAT0Y, trigger_info)]
    keys := [.BTN_SOUTH, .BTN_NORTH, .BTN_EAST, .BTN_WEST, .BTN_SELECT,
      .BTN_START, .BTN_MODE, .BTN_TL, .BTN_TR, .BTN_THUMBL, .BTN_THUMBR] }

/-- C6: the virtual device's capability set is precisely 4 stick axes
(X, Y, RX, RY) with range −32768..32767, fuzz 16, flat 128; 2 trigger
axes (Z, RZ) with range 0..1023 and fuzz/flat 0; 2 d-pad axes (HAT0X,
HAT0Y) with the same 0..1023 parameters as the triggers; and exactly
the 11 buttons south, north, east, west, select, start, mode, TL, TR,
THUMBL, THUMBR. -/
theorem C6_virtual_device_capabilities :
    setup_virtual_device.axes =
      [(.ABS_X, ⟨0, -32768, 32767, 16, 128, 0⟩),
       (.ABS_Y, ⟨0, -32768, 32767, 16, 128, 0⟩),
       (.ABS_RX, ⟨0, -32768, 32767, 16, 128, 0⟩),
       (.ABS_RY, ⟨0, -32768, 32767, 16, 128, 0⟩),
       (.ABS_Z, ⟨0, 0, 1023, 0, 0, 0⟩),
       (.ABS_RZ, ⟨0, 0, 1023, 0, 0, 0⟩),
       (.ABS_HAT0X, ⟨0, 0, 1023, 0, 0, 0⟩),
       (.ABS_HAT0Y, ⟨0, 0, 1023, 0, 0, 0⟩)] ∧
    setup_virtual_device.keys =
      [.BTN_SOUTH, .BTN_NORTH, .BTN_EAST, .BTN_WEST, .BTN_SELECT,
       .BTN_START, .BTN_MODE, .BTN_TL, .BTN_TR, .BTN_THUMBL, .BTN_THUMBR] ∧
    setup_virtual_device.keys.length = 11 ∧
    setup_virtual_device.keys.Nodup ∧
    setup_virtual_device.axes.length = 8 ∧
    setup_virtual_device.name = "Muxed Controller" :=
  ⟨rfl, rfl, rfl, by decide, rfl, rfl⟩

/-- `const PRIMARY_CONTROLLER_NAME`. -/
def PRIMARY_CONTROLLER_NAME : String := "Xbox Wireless Controller"

/-- `const SECONDARY_CONTROLLER_NAME`. -/
def SECONDARY_CONTROLLER_NAME : String := "RealityRunner Treadmill Sensor"

/-- What `main` sees of the world: the process arguments (index 0 being
the program name) and whether `setup_virtual_device()` fails. -/
structure MainEnv where
  args : List String
  setupErr : Option String

/-- How `main` can end: propagate the setup error having spawned no
supervisor threads, stay blocked forever joining the two supervisor
threads it spawned for the two resolved names, or return normally
(which never happens). -/
inductive MainResult where
  | setupFailed (e : String) (supervisorsSpawned : Nat)
  | runningForever (primary secondary : String)
  | exited
deriving DecidableEq, Repr

/-- `main`: resolve the two source names from `args` (falling back to
the compiled-in defaults), run `setup_virtual_device()?`, then spawn the
two `connection_loop` supervisors and block joining them. -/
def mainModel (env : MainEnv) : MainResult :=
  let primary_name := (env.args.get? 1).getD PRIMARY_CONTROLLER_NAME
  let secondary_name := (env.args.get? 2).getD SECONDARY_CONTROLLER_NAME
  match env.setupErr with
  | some e => .setupFailed e 0
  | none => .runningForever primary_name secondary_name

/-- C8: the process terminates abnormally only when virtual-device
construction fails at startup — the error is propagated with zero
supervisor threads spawned — and when construction succeeds, `main`
blocks forever joining the two supervisors and never returns. -/
theorem C8_exit_only_on_setup_failure (env : MainEnv) :
    (∀ e, env.setupErr = some e → mainModel env = .setupFailed e 0) ∧
    (env.setupErr = none →
        mainModel env = .runningForever
          ((env.args.get? 1).getD PRIMARY_CONTROLLER_NAME)
          ((env.args.get? 2).getD SECONDARY_CONTROLLER_NAME)) ∧
    mainModel env ≠ .exited := by
  unfold mainModel
  cases hs : env.setupErr with
  | some e0 =>
    refine ⟨?_, ?_, by simp⟩
    · intro e h
      injection h with h'
      rw [h']
    · intro h; cases h
  | none =>
    refine ⟨?_, ?_, by simp⟩
    · intro e h; cases h
    · intro _; rfl

theorem C8_exit_only_on_setup_failure_witness :
    mainModel ⟨["muxer"], some "uinput open failed"⟩ =
      .setupFailed "uinput open failed" 0 :=
  (C8_exit_only_on_setup_failure ⟨["muxer"], some "uinput open failed"⟩).1
    "uinput open failed" rfl

/-- State of the Output Sink under two concurrent workers: whether
thread A (resp. B) is inside the mutex's critical section, the events
each thread still has to submit, and what the virtual device has
received so far, tagged by submitting thread, in write order. -/
structure SinkState where
  critA : Bool
  critB : Bool
  pendA : List InputEvent
  pendB : List InputEvent
  recv : List (Bool × InputEvent)
deriving DecidableEq, Repr

/-- One scheduler step of the two workers around
`let mut virt_dev = virt_device.lock(); virt_dev.emit(&[event])?`:
a thread with a pending event may acquire the mutex only when nobody
holds it, and a thread holding the mutex writes its next event to the
device and releases.  Tag `true` is worker A, `false` is worker B. -/
inductive SinkStep : SinkState → SinkState → Prop where
  | lockA : ∀ {s : SinkState} {e rest}, s.critA = false → s.critB = false →
      s.pendA = e :: rest →
      SinkStep s ⟨true, s.critB, s.pendA, s.pendB, s.recv⟩
  | emitA : ∀ {s : SinkState} {e rest}, s.critA = true → s.pendA = e :: rest →
      SinkStep s ⟨false, s.critB, rest, s.pendB, s.recv ++ [(true, e)]⟩
  | lockB : ∀ {s : SinkState} {e rest}, s.critA = false → s.critB = false →
      s.pendB = e :: rest →
      SinkStep s ⟨s.critA, true, s.pendA, s.pendB, s.recv⟩
  | emitB : ∀ {s : SinkState} {e rest}, s.critB = true → s.pendB = e :: rest →
      SinkStep s ⟨s.critA, false, s.pendA, rest, s.recv ++ [(false, e)]⟩

/-- Initial sink state: mutex free, nothing written, worker A about to
submit the events `A` in order and worker B the events `B`. -/
def initSink (A B : List InputEvent) : SinkState :=
  ⟨false, false, A, B, []⟩

/-- Sink states reachable from `initSink A B` under any interleaving. -/
inductive SinkReach (A B : List InputEvent) : SinkState → Prop where
  | init : SinkReach A B (initSink A B)
  | step : ∀ {s t}, SinkReach A B s → SinkStep s t → SinkReach A B t

/-- The events the device received from the worker tagged `tag`, in
write order. -/
def recvFrom (tag : Bool) (recv : List (Bool × InputEvent)) : List InputEvent :=
  (recv.filter (fun p => p.1 == tag)).map (fun p => p.2)

lemma recvFrom_append_same (tag : Bool) (l : List (Bool × InputEvent))
    (e : InputEvent) : recvFrom tag (l ++ [(tag, e)]) = recvFrom tag l ++ [e] := by
  simp [recvFrom]

lemma recvFrom_append_other (tag t : Bool) (l : List (Bool × InputEvent))
    (e : InputEvent) (h : t ≠ tag) :
    recvFrom tag (l ++ [(t, e)]) = recvFrom tag l := by
  simp [recvFrom, h]

/-- The sink's inductive invariant: the mutex is held by at most one
thread, and per thread, delivered-so-far plus still-pending is exactly
that thread's submission sequence, in order. -/
def SinkInv (A B : List InputEvent) (s : SinkState) : Prop :=
  ¬(s.critA = true ∧ s.critB = true) ∧
  recvFrom true s.recv ++ s.pendA = A ∧
  recvFrom false s.recv ++ s.pendB = B

lemma sink_inv (A B : List InputEvent) :
    ∀ s, SinkReach A B s → SinkInv A B s := by
  intro s h
  induction h with
  | init =>
    refine ⟨by simp [initSink], ?_, ?_⟩ <;> simp [initSink, recvFrom]
  | step hr hstep ih =>
    obtain ⟨hmux, hA, hB⟩ := ih
    cases hstep with
    | lockA hca hcb hp =>
      exact ⟨by simp [hcb], hA, hB⟩
    | emitA hc hp =>
      refine ⟨by simp, ?_, ?_⟩
      · rw [recvFrom_append_same]
        rw [hp] at hA
        simpa [List.append_assoc] using hA
      · rw [recvFrom_append_other false true _ _ (by simp)]
        exact hB
    | lockB hca hcb hp =>
      exact ⟨by simp [hca], hA, hB⟩
    | emitB hc hp =>
      refine ⟨by simp, ?_, ?_⟩
      · rw [recvFrom_append_other true false _ _ (by simp)]
        exact hA
      · rw [recvFrom_append_same]
        rw [hp] at hB
        simpa [List.append_assoc] using hB

lemma sink_recv_only_under_lock (s t : SinkState) (h : SinkStep s t) :
    t.recv ≠ s.recv → s.critA = true ∨ s.critB = true := by
  intro _
  cases h with
  | lockA hca hcb hp => simp at *
  | emitA hc hp => exact Or.inl hc
  | lockB hca hcb hp => simp at *
  | emitB hc hp => exact Or.inr hc

/-- C5: writes to the virtual device are serialized by the sink's mutex
— both threads are never in the critical section at once, and a step
can only extend the device's receive log while its thread holds the
lock.  Under any interleaving, at every reachable state each source's
delivered-plus-pending sequence is exactly its submission sequence
(nothing lost, truncated, duplicated or reordered per source), and when
both sources have drained, the device has received exactly the union of
the submitted events, each exactly once. -/
theorem C5_sink_serialization (A B : List InputEvent) :
    (∀ s, SinkReach A B s → ¬(s.critA = true ∧ s.critB = true)) ∧
    (∀ s t, SinkStep s t → t.recv ≠ s.recv →
        s.critA = true ∨ s.critB = true) ∧
    (∀ s, SinkReach A B s →
        recvFrom true s.recv ++ s.pendA = A ∧
        recvFrom false s.recv ++ s.pendB = B) ∧
    (∀ s, SinkReach A B s → s.pendA = [] → s.pendB = [] →
        recvFrom true s.recv = A ∧ recvFrom false s.recv = B ∧
        (s.recv.map (fun p => p.2)).Perm (A ++ B)) := by
  refine ⟨?_, ?_, ?_, ?_⟩
  · intro s h; exact (sink_inv A B s h).1
  · intro s t h; exact sink_recv_only_under_lock s t h
  · intro s h; exact ⟨(sink_inv A B s h).2.1, (sink_inv A B s h).2.2⟩
  · intro s h hA hB
    obtain ⟨-, h1, h2⟩ := sink_inv A B s h
    rw [hA, List.append_nil] at h1
    rw [hB, List.append_nil] at h2
    refine ⟨h1, h2, ?_⟩
    have hfun : (fun (p : Bool × InputEvent) => !(p.1 == true)) =
        (fun p => p.1 == false) := by
      funext p; cases hp : p.1 <;> simp [hp]
    have hperm :=
      List.filter_append_perm (fun (p : Bool × InputEvent) => p.1 == true) s.recv
    have hmap := hperm.map (fun p : Bool × InputEvent => p.2)
    rw [List.map_append] at hmap
    rw [hfun] at hmap
    have hsplit : (recvFrom true s.recv ++ recvFrom false s.recv).Perm
        (s.recv.map (fun p => p.2)) := hmap
    rw [h1, h2] at hsplit
    exact hsplit.symm

/-- A sample event submitted by worker A. -/
def evA : InputEvent := ⟨3, 0, 10, 0⟩

/-- A sample event submitted by worker B. -/
def evB : InputEvent := ⟨3, 1, 20, 1⟩

theorem C5_sink_serialization_witness :
    recvFrom true [(true, evA), (false, evB)] = [evA] ∧
    recvFrom false [(true, evA), (false, evB)] = [evB] ∧
    ([(true, evA), (false, evB)].map (fun p => p.2)).Perm ([evA] ++ [evB]) :=
  (C5_sink_serialization [evA] [evB]).2.2.2
    ⟨false, false, [], [], [(true, evA), (false, evB)]⟩
    (SinkReach.step
      (SinkReach.step
        (SinkReach.step
          (SinkReach.step SinkReach.init (SinkStep.lockA rfl rfl rfl))
          (SinkStep.emitA rfl rfl))
        (SinkStep.lockB rfl rfl rfl))
      (SinkStep.emitB rfl rfl))
    rfl rfl
